import Mathlib

/-!
Verification development for the course-assistant service (`src/index.js`).

The JavaScript source is shallowly embedded: strings are `List Char`,
each utility of the source becomes an executable Lean definition with the
source's name, and the stateful chat endpoint becomes a pure function from
(session store, message) to (response, session store).

The JS Unicode primitives used by `normalize` (`toLowerCase`,
`normalize('NFD')`, the `\p{L}\p{N}` and `\s` character classes and the
combining-mark range) are modeled character-wise over the repertoire the
application actually handles (ASCII plus the Spanish accented letters);
characters outside the tables are left untouched, mirroring the identity
behaviour of the JS operations on unaccented characters.
-/

namespace MVP

set_option maxRecDepth 100000

/-- Strings of the embedded program. -/
abbrev Str := List Char

/-- Case table for `String.prototype.toLowerCase` on the repertoire used by
the app: ASCII uppercase plus the accented Spanish capitals. -/
def lowerPairs : List (Char × Char) :=
  [('A','a'),('B','b'),('C','c'),('D','d'),('E','e'),('F','f'),('G','g'),
   ('H','h'),('I','i'),('J','j'),('K','k'),('L','l'),('M','m'),('N','n'),
   ('O','o'),('P','p'),('Q','q'),('R','r'),('S','s'),('T','t'),('U','u'),
   ('V','v'),('W','w'),('X','x'),('Y','y'),('Z','z'),
   ('Á','á'),('É','é'),('Í','í'),('Ó','ó'),('Ú','ú'),('Ñ','ñ'),('Ü','ü')]

/-- Character-wise model of `toLowerCase`. -/
def jsLower (c : Char) : Char := (List.lookup c lowerPairs).getD c

/-- Model of `toLowerCase` on a string. -/
def lowerStr (s : Str) : Str := s.map jsLower

/-- Canonical decomposition (`normalize('NFD')`) table for the accented
letters of the repertoire; other characters decompose to themselves. -/
def nfdPairs : List (Char × Str) :=
  [('á', ['a', '́']), ('é', ['e', '́']), ('í', ['i', '́']),
   ('ó', ['o', '́']), ('ú', ['u', '́']), ('ñ', ['n', '̃']),
   ('ü', ['u', '̈']),
   ('Á', ['A', '́']), ('É', ['E', '́']), ('Í', ['I', '́']),
   ('Ó', ['O', '́']), ('Ú', ['U', '́']), ('Ñ', ['N', '̃']),
   ('Ü', ['U', '̈'])]

/-- Character-wise model of `normalize('NFD')`. -/
def nfdChar (c : Char) : Str := (List.lookup c nfdPairs).getD [c]

/-- The combining-mark range `[̀-ͯ]` stripped by `normalize`. -/
def isCombining (c : Char) : Bool := 0x300 ≤ c.toNat && c.toNat ≤ 0x36f

/-- The `\p{L}\p{N}` class of the source's regex, on the modeled repertoire. -/
def isWordChar (c : Char) : Bool :=
  c.isAlpha || c.isDigit ||
  c == 'á' || c == 'é' || c == 'í' || c == 'ó' || c == 'ú' || c == 'ñ' || c == 'ü' ||
  c == 'Á' || c == 'É' || c == 'Í' || c == 'Ó' || c == 'Ú' || c == 'Ñ' || c == 'Ü'

/-- The regex `\s` class. -/
def isSpaceChar (c : Char) : Bool :=
  c == ' ' || c == '\t' || c == '\n' || c == '\r' || c == '\x0b' || c == '\x0c'

/-- Model of `replace(/[^\p{L}\p{N}\s]/gu, ' ')` acting on one character. -/
def toSpace (c : Char) : Char := if isWordChar c || isSpaceChar c then c else ' '

/-- The character-local part of `normalize`: lowercase, decompose, strip
combining marks, replace non letter/digit/space characters with a space. -/
def preNorm (s : Str) : Str :=
  (((s.map jsLower).flatMap nfdChar).filter (fun c => !isCombining c)).map toSpace

/-- Model of `replace(/\s+/g, ' ')` with the leading run removed: the flag records
whether the previous character was whitespace (true initially, so a leading
run produces nothing, which together with `trimEnd` models `trim()`). -/
def collapseAux : Bool → Str → Str
  | _, [] => []
  | prevSpace, c :: rest =>
    if isSpaceChar c then
      (if prevSpace then collapseAux true rest else ' ' :: collapseAux true rest)
    else c :: collapseAux false rest

/-- Remove trailing whitespace. -/
def trimEnd : Str → Str
  | [] => []
  | c :: rest => if (trimEnd rest).isEmpty && isSpaceChar c then [] else c :: trimEnd rest

/-- Model of `normalize` from `src/index.js` lines 33-41: lowercase, NFD-decompose,
strip combining marks, replace non letter/digit/space with a space, collapse
whitespace runs and trim. -/
def normalize (s : Str) : Str := trimEnd (collapseAux true (preNorm s))

/-- Proof device: when the flag is true the next character must not be
whitespace; rules out leading and doubled whitespace. -/
def spacingOk : Bool → Str → Bool
  | _, [] => true
  | b, c :: r => if isSpaceChar c then !b && spacingOk true r else spacingOk false r

/-- Proof device: the string does not end in whitespace. -/
def endOk : Str → Bool
  | [] => true
  | c :: r => if r.isEmpty then !isSpaceChar c else endOk r

/-- The whitespace flag that `collapseAux` reaches after a string. -/
def flagAfter (b : Bool) (l : Str) : Bool :=
  match l.getLast? with
  | none => b
  | some c => isSpaceChar c

/-- Whitespace collapsing plus trimming: the tail of `normalize`. -/
def canonN (l : Str) : Str := trimEnd (collapseAux true l)

/-- Insertion-order deduplication, the `new Set([...])` constructor. -/
def setOf {α : Type} [BEq α] : List α → List α
  | [] => []
  | x :: r => x :: (setOf r).filter (fun y => y != x)

/-- Model of `new Set(normalize(s).split(' ').filter(Boolean))`. -/
def tokensOf (s : Str) : List Str :=
  setOf (((normalize s).splitOn ' ').filter (fun w => !w.isEmpty))

/-- Model of `jaccard` from `src/index.js` lines 117-124: word-level Jaccard
similarity of two titles, 0 when either token set is empty. -/
def jaccard (a b : Str) : ℚ :=
  let A := tokensOf a
  let B := tokensOf b
  if A.isEmpty || B.isEmpty then 0
  else ((A.filter (fun w => B.contains w)).length : ℚ) / ((setOf (A ++ B)).length : ℚ)

/-- Model of `isDirectTitleMention` from `src/index.js` lines 138-154: substring
containment of the normalized title, or a high token-overlap gate. -/
def isDirectTitleMention (query title : Str) : Bool :=
  let q := normalize query
  let t := normalize title
  if q.isEmpty || t.isEmpty then false
  else if decide (t <:+: q) then true
  else
    let qTok := setOf ((q.splitOn ' ').filter (fun w => !w.isEmpty))
    let tTok := setOf ((t.splitOn ' ').filter (fun w => !w.isEmpty))
    let inter := (qTok.filter (fun x => tTok.contains x)).length
    let uni := (setOf (qTok ++ tTok)).length
    let j : ℚ := if uni = 0 then 0 else (inter : ℚ) / (uni : ℚ)
    decide ((72 : ℚ)/100 ≤ j) || (decide (2 ≤ inter) && decide ((55 : ℚ)/100 ≤ j))

/- ### Catalog model -/

/-- One character of `sanitize` (`src/index.js` lines 64-71): the regex class
is `` [`*_<>{}] `` but the replacement map only covers `<>` and the braces, so
backtick, `*` and `_` fall through `map[ch] || ch` unchanged. -/
def escChar (c : Char) : Str :=
  if c = '<' then "&lt;".data
  else if c = '>' then "&gt;".data
  else if c = '\x7b' then "&#123;".data
  else if c = '\x7d' then "&#125;".data
  else [c]

/-- Model of `sanitize`: escape, collapse whitespace, trim. Named `sanitizeField` to
avoid clashing with the enrollment-link sanitizer. -/
def sanitizeField (s : Str) : Str := trimEnd (collapseAux true (s.flatMap escChar))

/-- Model of `trim()` of JavaScript. -/
def trimJS (s : Str) : Str := trimEnd (s.dropWhile isSpaceChar)

/-- Model of `clamp` (lines 74-77), always called with the default bound 1200. -/
def clamp (s : Str) : Str := if s.length > 1200 then s.take 1200 ++ ['…'] else s

/-- Decimal digits of a number, most significant first; fuel-bounded. -/
def natDigitsAux : Nat → Nat → Str
  | 0, _ => []
  | fuel + 1, n =>
    if n < 10 then [Nat.digitChar n]
    else natDigitsAux fuel (n / 10) ++ [Nat.digitChar (n % 10)]

/-- Model of `String(n)` for a number. -/
def natDigits (n : Nat) : Str := natDigitsAux (n + 1) n

/-- Model of `padStart(2, '0')` of a number. -/
def two (n : Nat) : Str := if n < 10 then '0' :: natDigits n else natDigits n

/-- ISO `YYYY-MM-DD` parser modelling `new Date(iso)` plus the
`Number.isNaN(d.getTime())` validity check; the 2025 catalog stores dates in
this shape, and anything else is treated as invalid. -/
def parseISO (s : Str) : Option (Nat × Nat × Nat) :=
  match s with
  | [y1, y2, y3, y4, '-', m1, m2, '-', d1, d2] =>
    if y1.isDigit && y2.isDigit && y3.isDigit && y4.isDigit &&
        m1.isDigit && m2.isDigit && d1.isDigit && d2.isDigit then
      let y := ((y1.toNat - 48) * 10 + (y2.toNat - 48)) * 100 +
        ((y3.toNat - 48) * 10 + (y4.toNat - 48))
      let m := (m1.toNat - 48) * 10 + (m2.toNat - 48)
      let d := (d1.toNat - 48) * 10 + (d2.toNat - 48)
      if 1 ≤ m && m ≤ 12 && 1 ≤ d && d ≤ 31 then some (y, m, d) else none
    else none
  | _ => none

/-- Month names (line 44). -/
def meses : List Str :=
  ["enero".data, "febrero".data, "marzo".data, "abril".data, "mayo".data,
   "junio".data, "julio".data, "agosto".data, "septiembre".data,
   "octubre".data, "noviembre".data, "diciembre".data]

/-- Model of `fechaLegible` (lines 45-50): ISO date to `15 de junio`, empty on
missing or invalid input. -/
def fechaLegible (iso : Str) : Str :=
  match parseISO iso with
  | none => []
  | some (_, m, d) => natDigits d ++ " de ".data ++ (meses.getD (m - 1) [])

/-- Model of `fechaDDMMYYYY` (lines 53-61). -/
def fechaDDMMYYYY (iso : Str) : Str :=
  match parseISO iso with
  | none => "sin fecha confirmada".data
  | some (y, m, d) => two d ++ "/".data ++ two m ++ "/".data ++ natDigits y

/-- Raw requirement record, `c.requisitos` as found in the JSON. -/
structure RawRequisitos where
  mayor_18 : Bool
  carnet_conducir : Bool
  primaria_completa : Bool
  secundaria_completa : Bool
  otros : List Str
deriving DecidableEq

/-- Raw materials record. -/
structure RawMateriales where
  aporta_estudiante : List Str
  entrega_curso : List Str
deriving DecidableEq

/-- A raw catalog record before whitelisting; absent strings are `[]`
(matching the `|| ''` defaults) and absent sub-records are `none`. -/
structure RawCourse where
  id : Nat
  titulo : Str
  descripcion_breve : Str
  descripcion_completa : Str
  actividades : Str
  duracion_total : Str
  fecha_inicio : Str
  fecha_fin : Str
  frecuencia_semanal : Option Str
  duracion_clase_horas : List Nat
  dias_horarios : List Str
  localidades : List Str
  direcciones : List Str
  requisitos : Option RawRequisitos
  materiales : Option RawMateriales
  formulario : Str
  imagen : Str
  estado : Str
deriving DecidableEq

/-- Requirements after whitelisting. -/
structure Requisitos where
  mayor_18 : Bool
  carnet_conducir : Bool
  primaria_completa : Bool
  secundaria_completa : Bool
  otros : List Str
deriving DecidableEq

/-- Materials after whitelisting. -/
structure Materiales where
  aporta_estudiante : List Str
  entrega_curso : List Str
deriving DecidableEq

/-- A catalog course after `pickCourse`. -/
structure Course where
  id : Nat
  titulo : Str
  descripcion_breve : Str
  descripcion_completa : Str
  actividades : Str
  duracion_total : Str
  fecha_inicio : Str
  fecha_inicio_legible : Str
  fecha_fin : Str
  fecha_fin_legible : Str
  frecuencia_semanal : Str
  duracion_clase_horas : List Nat
  dias_horarios : List Str
  localidades : List Str
  direcciones : List Str
  requisitos : Requisitos
  materiales : Materiales
  formulario : Str
  imagen : Str
  estado : Str
deriving DecidableEq

/-- Model of `pickCourse` (lines 80-114): field whitelist, sanitization, list caps,
derived display dates and the state default. -/
def pickCourse (c : RawCourse) : Course where
  id := c.id
  titulo := sanitizeField c.titulo
  descripcion_breve := sanitizeField c.descripcion_breve
  descripcion_completa := sanitizeField c.descripcion_completa
  actividades := sanitizeField c.actividades
  duracion_total := sanitizeField c.duracion_total
  fecha_inicio := c.fecha_inicio
  fecha_inicio_legible := fechaLegible c.fecha_inicio
  fecha_fin := c.fecha_fin
  fecha_fin_legible := fechaLegible c.fecha_fin
  frecuencia_semanal := c.frecuencia_semanal.getD ("otro".data)
  duracion_clase_horas := c.duracion_clase_horas.take 3
  dias_horarios := (c.dias_horarios.map sanitizeField).take 8
  localidades := (c.localidades.map sanitizeField).take 12
  direcciones := (c.direcciones.map sanitizeField).take 8
  requisitos :=
    { mayor_18 := (c.requisitos.map (fun r => r.mayor_18)).getD false
      carnet_conducir := (c.requisitos.map (fun r => r.carnet_conducir)).getD false
      primaria_completa := (c.requisitos.map (fun r => r.primaria_completa)).getD false
      secundaria_completa := (c.requisitos.map (fun r => r.secundaria_completa)).getD false
      otros := match c.requisitos with
        | none => []
        | some r => (r.otros.map sanitizeField).take 10 }
  materiales :=
    { aporta_estudiante := match c.materiales with
        | none => []
        | some m => (m.aporta_estudiante.map sanitizeField).take 30
      entrega_curso := match c.materiales with
        | none => []
        | some m => (m.entrega_curso.map sanitizeField).take 30 }
  formulario := sanitizeField c.formulario
  imagen := sanitizeField c.imagen
  estado := lowerStr (if c.estado.isEmpty then "proximo".data else c.estado)

/-- Model of `ESTADO_LABEL` (lines 177-182). -/
def ESTADO_LABEL : List (Str × Str) :=
  [("inscripcion_abierta".data, "Inscripción abierta".data),
   ("proximo".data, "Próximo (inscripción aún no habilitada)".data),
   ("en_curso".data, "En cursada (sin inscripción)".data),
   ("finalizado".data, "Finalizado (referencia)".data)]

/-- Model of `estadoLegible` (line 183). -/
def estadoLegible (c : Course) : Str :=
  (List.lookup (if c.estado.isEmpty then "proximo".data else c.estado) ESTADO_LABEL).getD
    ("Próximo (inscripción aún no habilitada)".data)

/-- Model of `isEligible` (lines 134-135). -/
def isEligible (c : Course) : Bool :=
  lowerStr (if c.estado.isEmpty then "proximo".data else c.estado) ==
      "inscripcion_abierta".data ||
    lowerStr (if c.estado.isEmpty then "proximo".data else c.estado) == "proximo".data

/-- Model of `cursosElegibles` (line 170). -/
def cursosElegibles (cursos : List Course) : List Course := cursos.filter isEligible

/-- Model of `cursosPorLocalidadElegibles` (lines 204-207). -/
def cursosPorLocalidadElegibles (cursos : List Course) (loc : Str) : List Course :=
  (cursosElegibles cursos).filter
    (fun c => c.localidades.any (fun l => normalize l == normalize loc))

/- ### Intent router -/

/-- Substring test: `rx.test(normalize(s))` for a literal alternative. -/
def containsTok (pat m : Str) : Bool := decide (pat <:+: m)

/-- Two literals in order with anything between them (`a.*b`). -/
def containsSeq (a b m : Str) : Bool :=
  m.tails.any (fun t => decide (a <+: t) && decide (b <:+: t.drop a.length))

/-- The regex `/(inscrib|anotarme|anotarme ya|como me inscribo|c[oó]mo me inscribo)/`
applied to normalized text, where the accented alternative cannot occur and
`anotarme ya` is subsumed by `anotarme`; kept as the live literals. -/
def hasInscribKw (n : Str) : Bool :=
  containsTok ("inscrib".data) n || containsTok ("anotarme".data) n ||
    containsTok ("como me inscribo".data) n

/-- The regex `/(que|qué)\s+cursos\s+(hay|estan|están)\s+(disponibles|abiertos|ahora)/`
on normalized text, where `\s+` can only be a single space and the accented
alternatives cannot occur. -/
def hasDisponiblesKw (n : Str) : Bool :=
  ["hay".data, "estan".data].any fun w2 =>
    ["disponibles".data, "abiertos".data, "ahora".data].any fun w3 =>
      containsTok ("que cursos ".data ++ w2 ++ " ".data ++ w3) n

/-- The regex `/(formulario|link|inscripci[oó]n|inscribirme)/` on normalized text. -/
def hasFormKw (n : Str) : Bool :=
  containsTok ("formulario".data) n || containsTok ("link".data) n ||
    containsTok ("inscripcion".data) n || containsTok ("inscribirme".data) n

/-- The regex `/horari|d[ií]as/` on normalized text. -/
def hasHorariKw (n : Str) : Bool :=
  containsTok ("horari".data) n || containsTok ("dias".data) n

/-- The regex `/(donde|dónd|sede|direcci[óo]n)/` on normalized text. -/
def hasSedeKw (n : Str) : Bool :=
  containsTok ("donde".data) n || containsTok ("dond".data) n ||
    containsTok ("sede".data) n || containsTok ("direccion".data) n

/-- The regex `/(cu[aá]ndo.*empieza|fecha.*inicio|empieza|inicio)/` on normalized text. -/
def hasFechaInicioKw (n : Str) : Bool :=
  containsSeq ("cuando".data) ("empieza".data) n ||
    containsSeq ("fecha".data) ("inicio".data) n ||
    containsTok ("empieza".data) n || containsTok ("inicio".data) n

/-- The regex `/(cu[aá]ndo.*termina|fecha.*fin|termina|finaliza)/` on normalized text. -/
def hasFechaFinKw (n : Str) : Bool :=
  containsSeq ("cuando".data) ("termina".data) n ||
    containsSeq ("fecha".data) ("fin".data) n ||
    containsTok ("termina".data) n || containsTok ("finaliza".data) n

/-- The regex `/(precio|costo|cupos|modalidad)/` on normalized text. -/
def hasNoPublicadoKw (n : Str) : Bool :=
  containsTok ("precio".data) n || containsTok ("costo".data) n ||
    containsTok ("cupos".data) n || containsTok ("modalidad".data) n

/-- Case-insensitive literal consumption for the regex matchers. -/
def eatCI : Str → Str → Option Str
  | [], l => some l
  | _ :: _, [] => none
  | p :: ps, c :: cs => if jsLower c = jsLower p then eatCI ps cs else none

/-- Case-sensitive literal consumption. -/
def eatCS : Str → Str → Option Str
  | [], l => some l
  | _ :: _, [] => none
  | p :: ps, c :: cs => if c = p then eatCS ps cs else none

/-- First alternative that matches. -/
def firstSome (a b : Option Str) : Option Str :=
  match a with
  | some x => some x
  | none => b

/-- Greedy `p+`: at least one matching character, then the maximal run. -/
def span1 (p : Char → Bool) : Str → Option Str
  | [] => none
  | c :: cs => if p c then some (cs.dropWhile p) else none

/-- The character class `[a-záéíóúñ\s]` of the locality regex, under `/i`. -/
def locAllowed (c : Char) : Bool :=
  ('a' ≤ c && c ≤ 'z') || ('A' ≤ c && c ≤ 'Z') ||
  c == 'á' || c == 'é' || c == 'í' || c == 'ó' || c == 'ú' || c == 'ñ' ||
  c == 'Á' || c == 'É' || c == 'Í' || c == 'Ó' || c == 'Ú' || c == 'Ñ' ||
  isSpaceChar c

/-- The regex `/cursos\s+(en|de)\s+([a-záéíóúñ\s]+)$/i` anchored at one position: the
captured group is the rest of the string (greedy `\s+` with the one-space
give-back when everything after `en`/`de` is whitespace). -/
def locMatchAt (l : Str) : Option Str :=
  (eatCI ("cursos".data) l).bind fun r1 =>
  (span1 isSpaceChar r1).bind fun r2 =>
  (firstSome (eatCI ("en".data) r2) (eatCI ("de".data) r2)).bind fun r3 =>
  match r3.takeWhile isSpaceChar, r3.dropWhile isSpaceChar with
  | [], _ => none
  | _ :: _, [] => if 2 ≤ (r3.takeWhile isSpaceChar).length then some [' '] else none
  | _ :: _, rest => if rest.all locAllowed then some rest else none

/-- First-match scan of the locality regex over the raw message. -/
def locMatch : Str → Option Str
  | [] => none
  | c :: rest =>
    match locMatchAt (c :: rest) with
    | some cap => some cap
    | none => locMatch rest

/-- The intents of `detectIntent` (lines 212-235). -/
inductive IntentR where
  | inscripcionGeneral
  | listadoDisponibles
  | porLocalidad (loc : Str)
  | formulario (c : Course)
  | horarios (c : Course)
  | requisitos (c : Course)
  | materiales (c : Course)
  | sede (c : Course)
  | fecha_inicio (c : Course)
  | fecha_fin (c : Course)
  | duracion (c : Course)
  | noPublicado (c : Course)
  | masInfo (c : Course)
  | desconocido
deriving DecidableEq

/-- Model of `detectIntent` (lines 212-235), the ordered first-match-wins router. -/
def detectIntent (cursos : List Course) (msg : Str) : IntentR :=
  let n := normalize msg
  if hasInscribKw n then .inscripcionGeneral
  else if hasDisponiblesKw n then .listadoDisponibles
  else
    match locMatch msg with
    | some cap => .porLocalidad (trimJS cap)
    | none =>
      match cursos.find? (fun c => isDirectTitleMention msg c.titulo) with
      | some c =>
        if hasFormKw n then .formulario c
        else if hasHorariKw n then .horarios c
        else if containsTok ("requisit".data) n then .requisitos c
        else if containsTok ("material".data) n then .materiales c
        else if hasSedeKw n then .sede c
        else if hasFechaInicioKw n then .fecha_inicio c
        else if hasFechaFinKw n then .fecha_fin c
        else if containsTok ("duracion".data) n then .duracion c
        else if hasNoPublicadoKw n then .noPublicado c
        else .masInfo c
      | none => .desconocido

/- ### Response renderer -/

/-- Model of `accionesHTML` (lines 185-191). -/
def accionesHTML (c : Course) : Str :=
  "Acciones: Más info (navigateToCourse:".data ++ natDigits c.id ++ ")".data ++
    (if c.estado == "inscripcion_abierta".data && !c.formulario.isEmpty then
      " · <a href=\"".data ++ c.formulario ++
        "\" target=\"_blank\" rel=\"noopener\">Inscribirte</a>".data
    else [])

/-- Model of `detalleCortoHTML` (lines 193-201). -/
def detalleCortoHTML (c : Course) : Str :=
  List.intercalate ("<br>".data)
    ["<strong>".data ++ c.titulo ++ "</strong> — ".data ++ estadoLegible c,
     "Inicio: ".data ++ fechaDDMMYYYY c.fecha_inicio,
     "Localidad(es): ".data ++
       (if c.localidades.isEmpty then
         "Este curso todavía no tiene sede confirmada".data
       else List.intercalate (", ".data) c.localidades),
     accionesHTML c]

/-- The one-line enrollment sentence (lines 245 and 289). -/
def formularioOk (c : Course) : Str :=
  "En el curso <strong>".data ++ c.titulo ++
    "</strong>, te podés inscribir acá: <a href=\"".data ++ c.formulario ++
    "\" target=\"_blank\" rel=\"noopener\">Inscribirte</a>.<br>".data ++ accionesHTML c

/-- A list item of the `inscripcion-general` listing (line 247). -/
def itemAbierta (c : Course) : Str :=
  "• <strong>".data ++ c.titulo ++ "</strong> — ".data ++ estadoLegible c ++
    " — <a href=\"".data ++ c.formulario ++
    "\" target=\"_blank\" rel=\"noopener\">Inscribirte</a> — (navigateToCourse:".data ++
    natDigits c.id ++ ")".data

/-- The optional enrollment anchor of a listing item (lines 256-258, 270-272). -/
def linkFrag (c : Course) : Str :=
  if c.estado == "inscripcion_abierta".data && !c.formulario.isEmpty then
    " — <a href=\"".data ++ c.formulario ++
      "\" target=\"_blank\" rel=\"noopener\">Inscribirte</a>".data
  else []

/-- A list item of the availability and locality listings (lines 255-260,
269-274; the two templates are identical). -/
def itemListado (c : Course) : Str :=
  "• <strong>".data ++ c.titulo ++ "</strong> — ".data ++ estadoLegible c ++
    linkFrag c ++ " — (navigateToCourse:".data ++ natDigits c.id ++ ")".data

/-- The refusal line for a running course (lines 282-283 and 438). -/
def refusalEnCurso (c : Course) : Str :=
  "El curso <strong>".data ++ c.titulo ++
    "</strong> está en cursada, no admite nuevas inscripciones. Más información <a href=\"/curso/".data ++
    natDigits c.id ++ "?y=2025\">aquí</a>.".data

/-- The refusal line for a finished course (lines 284-285 and 437). -/
def refusalFinalizado (c : Course) : Str :=
  "El curso <strong>".data ++ c.titulo ++
    "</strong> ya finalizó, no podés inscribirte. Más información <a href=\"/curso/".data ++
    natDigits c.id ++ "?y=2025\">aquí</a>.".data

/-- The course-specific branches of `renderByIntent` (lines 278-322),
including the in-branch hard rule for `en_curso`/`finalizado`. -/
def renderCourseIntent (intent : IntentR) (c : Course) : Str :=
  if c.estado == "en_curso".data then refusalEnCurso c
  else if c.estado == "finalizado".data then refusalFinalizado c
  else
    match intent with
    | .formulario _ =>
      if c.estado == "inscripcion_abierta".data && !c.formulario.isEmpty then formularioOk c
      else
        "En el curso <strong>".data ++ c.titulo ++
          "</strong>, la inscripción aún no está habilitada.<br>".data ++ accionesHTML c
    | .horarios _ =>
      "En el curso <strong>".data ++ c.titulo ++
        "</strong>, los días y horarios son: ".data ++
        (if c.dias_horarios.isEmpty then "sin horario publicado".data
         else List.intercalate (", ".data) c.dias_horarios) ++
        ".<br>".data ++ accionesHTML c
    | .requisitos _ =>
      let req :=
        (if c.requisitos.mayor_18 then ["Ser mayor de 18 años".data] else []) ++
        (if c.requisitos.primaria_completa then ["Primaria completa".data] else []) ++
        (if c.requisitos.secundaria_completa then ["Secundaria completa".data] else []) ++
        c.requisitos.otros
      "En el curso <strong>".data ++ c.titulo ++ "</strong>, los requisitos son: ".data ++
        (if req.isEmpty then "no hay requisitos publicados".data
         else List.intercalate (", ".data) req) ++
        ".<br>".data ++ accionesHTML c
    | .materiales _ =>
      "En el curso <strong>".data ++ c.titulo ++ "</strong>, los materiales son: ".data ++
        (if c.materiales.aporta_estudiante.isEmpty then "no hay materiales publicados".data
         else List.intercalate (", ".data) c.materiales.aporta_estudiante) ++
        ".<br>".data ++ accionesHTML c
    | .sede _ =>
      "En el curso <strong>".data ++ c.titulo ++ "</strong>, se dicta en: ".data ++
        (if c.localidades.isEmpty then "Este curso todavía no tiene sede confirmada".data
         else List.intercalate (", ".data) c.localidades) ++
        ".<br>".data ++ accionesHTML c
    | .fecha_inicio _ =>
      "En el curso <strong>".data ++ c.titulo ++ "</strong>, se inicia el ".data ++
        fechaDDMMYYYY c.fecha_inicio ++ ".<br>".data ++ accionesHTML c
    | .fecha_fin _ =>
      "En el curso <strong>".data ++ c.titulo ++ "</strong>, finaliza el ".data ++
        fechaDDMMYYYY c.fecha_fin ++ ".<br>".data ++ accionesHTML c
    | .duracion _ =>
      "En el curso <strong>".data ++ c.titulo ++ "</strong>, la duración total es: ".data ++
        (if c.duracion_total.isEmpty then "no está publicada".data else c.duracion_total) ++
        ".<br>".data ++ accionesHTML c
    | .noPublicado _ =>
      "En el curso <strong>".data ++ c.titulo ++
        "</strong>, ese dato no está publicado en el catálogo 2025.<br>".data ++ accionesHTML c
    | _ => detalleCortoHTML c

/-- Model of `renderByIntent` (lines 237-325); `none` models the `null` that defers
the turn to the text-generation fallback. -/
def renderByIntent (cursos : List Course) (intent : IntentR) : Option Str :=
  match intent with
  | .inscripcionGeneral =>
    let abiertas :=
      (cursosElegibles cursos).filter (fun c => c.estado == "inscripcion_abierta".data)
    match abiertas with
    | [] =>
      some ("Ahora no hay cursos con inscripción abierta. Podés consultar “¿Cuándo abre la inscripción de \x7btítulo\x7d?”".data)
    | [c] => some (formularioOk c)
    | _ =>
      some ("Estas opciones tienen inscripción abierta:<br>".data ++
        List.intercalate ("<br>".data) ((abiertas.take 5).map itemAbierta))
  | .listadoDisponibles =>
    let list := (cursosElegibles cursos).take 10
    if list.isEmpty then some ("Por ahora no hay cursos disponibles. Probá más tarde.".data)
    else
      some ("Cursos disponibles ahora:<br>".data ++
        List.intercalate ("<br>".data) (list.map itemListado))
  | .porLocalidad loc =>
    let list := cursosPorLocalidadElegibles cursos loc
    if list.isEmpty then
      some ("No hay cursos con inscripción abierta o próximos en ".data ++
        sanitizeField loc ++
        ". Podés ver opciones disponibles en San Salvador de Jujuy.".data)
    else
      some ("Cursos en ".data ++ sanitizeField loc ++ ":<br>".data ++
        List.intercalate ("<br>".data) ((list.take 7).map itemListado))
  | .formulario c => some (renderCourseIntent intent c)
  | .horarios c => some (renderCourseIntent intent c)
  | .requisitos c => some (renderCourseIntent intent c)
  | .materiales c => some (renderCourseIntent intent c)
  | .sede c => some (renderCourseIntent intent c)
  | .fecha_inicio c => some (renderCourseIntent intent c)
  | .fecha_fin c => some (renderCourseIntent intent c)
  | .duracion c => some (renderCourseIntent intent c)
  | .noPublicado c => some (renderCourseIntent intent c)
  | .masInfo c => some (renderCourseIntent intent c)
  | .desconocido => none

/- ### Enrollment-link sanitizer -/

/-- Scan for the earliest position where `matchAt` succeeds; returns the
text before the match and the remainder after it. -/
def findMatch (matchAt : Str → Option Str) : Str → Option (Str × Str)
  | [] => Option.map (fun r => (([] : Str), r)) (matchAt [])
  | c :: rest =>
    match matchAt (c :: rest) with
    | some r => some ([], r)
    | none => Option.map (fun pr => (c :: pr.1, pr.2)) (findMatch matchAt rest)

/-- Model of `String.prototype.replace` with a non-global regex: first match only. -/
def replaceFirst (matchAt : Str → Option Str) (repl : Str) (l : Str) : Str :=
  match findMatch matchAt l with
  | some (p, r) => p ++ repl ++ r
  | none => l

/-- Model of `regex.test`. -/
def testMatch (matchAt : Str → Option Str) (l : Str) : Bool := (findMatch matchAt l).isSome

/-- Model of `ABRE_LINK_RE` (line 397) anchored at one position:
`<a\s+href="https?://(docs.google.com/forms|forms.gle)/[^"]+"[^>]*>` followed
by `Inscribirte</a>`, case-insensitively. -/
def abreLinkAt (l : Str) : Option Str :=
  (eatCI ("<a".data) l).bind fun r1 =>
  (span1 isSpaceChar r1).bind fun r2 =>
  (eatCI ("href=\"".data) r2).bind fun r3 =>
  (firstSome (eatCI ("https".data) r3) (eatCI ("http".data) r3)).bind fun r4 =>
  (eatCI ("://".data) r4).bind fun r5 =>
  (firstSome (eatCI ("docs.google.com/forms".data) r5) (eatCI ("forms.gle".data) r5)).bind
    fun r6 =>
  (eatCI ("/".data) r6).bind fun r7 =>
  (span1 (fun c => !(c == '"')) r7).bind fun r8 =>
  (eatCI ("\"".data) r8).bind fun r9 =>
  (eatCS (">".data) (r9.dropWhile (fun c => !(c == '>')))).bind fun r10 =>
  (eatCI ("inscribirte".data) r10).bind fun r11 =>
  eatCI ("</a>".data) r11

/-- The regex `/navigateToCourse:(\d+)/` anchored at one position, returning the
captured digit run (case-sensitive: the regex has no `i` flag). -/
def navIdAt (l : Str) : Option Str :=
  match eatCS ("navigateToCourse:".data) l with
  | none => none
  | some r =>
    match r.takeWhile Char.isDigit with
    | [] => none
    | ds => some ds

/-- First `navigateToCourse` id of a line. -/
def findNavId : Str → Option Str
  | [] => none
  | c :: rest =>
    match navIdAt (c :: rest) with
    | some ds => some ds
    | none => findNavId rest

/-- The regex `/\s*—\s*<a[^>]+>Inscribirte<\/a>/i` anchored at one position (the first
removal pattern of line 411). -/
def dashAnchorAt (l : Str) : Option Str :=
  (eatCS ("—".data) (l.dropWhile isSpaceChar)).bind fun r1 =>
  (eatCI ("<a".data) (r1.dropWhile isSpaceChar)).bind fun r2 =>
  (span1 (fun c => !(c == '>')) r2).bind fun r3 =>
  (eatCS (">".data) r3).bind fun r4 =>
  (eatCI ("inscribirte".data) r4).bind fun r5 =>
  eatCI ("</a>".data) r5

/-- The regex `/te pod[ée]s inscribir ac[áa]:\s*<a[^>]+>inscribirte<\/a>\.?/i` anchored
at one position (the second removal pattern of line 412). -/
def tePodesAt (l : Str) : Option Str :=
  (eatCI ("te pod".data) l).bind fun r1 =>
  (firstSome (eatCI ("é".data) r1) (eatCI ("e".data) r1)).bind fun r2 =>
  (eatCI ("s inscribir ac".data) r2).bind fun r3 =>
  (firstSome (eatCI ("á".data) r3) (eatCI ("a".data) r3)).bind fun r4 =>
  (eatCI (":".data) r4).bind fun r5 =>
  (eatCI ("<a".data) (r5.dropWhile isSpaceChar)).bind fun r6 =>
  (span1 (fun c => !(c == '>')) r6).bind fun r7 =>
  (eatCS (">".data) r7).bind fun r8 =>
  (eatCI ("inscribirte".data) r8).bind fun r9 =>
  (eatCI ("</a>".data) r9).map fun r10 =>
    match r10 with
    | '.' :: t => t
    | _ => r10

/-- The regex `/<br\s*\/?>/i` anchored at one position. -/
def brAt (l : Str) : Option Str :=
  (eatCI ("<br".data) l).bind fun r1 =>
  match r1.dropWhile isSpaceChar with
  | '/' :: r2 => eatCS (">".data) r2
  | r2 => eatCS (">".data) r2

/-- Model of `html.split(/<br\s*\/?>/i)`, with fuel bounded by the string length
(each separator consumes at least four characters). -/
def splitBrAux : Nat → Str → List Str
  | 0, l => [l]
  | Nat.succ n, l =>
    match findMatch brAt l with
    | some (p, r) => p :: splitBrAux n r
    | none => [l]

/-- Split an HTML string on `<br>` separators. -/
def splitBr (l : Str) : List Str := splitBrAux (l.length + 1) l

/-- Model of `sanitizeEnrollmentLinksByLine` (lines 397-415): per `<br>`-separated
line, if the line carries an `Inscribirte` forms anchor and its
`navigateToCourse` id is not an open course, apply the two removal
rewrites. -/
def sanitizeEnrollmentLinksByLine (cursos : List Course) (html : Str) : Str :=
  let openIds :=
    ((cursosElegibles cursos).filter (fun c => c.estado == "inscripcion_abierta".data)).map
      (fun c => natDigits c.id)
  let fixed := (splitBr html).map (fun line =>
    if !(testMatch abreLinkAt line) then line
    else
      let isOpen := match findNavId line with
        | some id => openIds.contains id
        | none => false
      if isOpen then line
      else
        replaceFirst tePodesAt ("la inscripción aún no está habilitada.".data)
          (replaceFirst dashAnchorAt [] line))
  List.intercalate ("<br>".data) fixed

/- ### Session store and chat endpoint -/

/-- One history entry. -/
structure ChatTurn where
  role : Str
  content : Str
deriving DecidableEq

/-- Per-session state (line 393-394). -/
structure SessState where
  history : List ChatTurn
  lastSuggestedCourse : Option (Str × Str)
deriving DecidableEq

/-- The in-memory session map. -/
abbrev Sessions := List (Str × SessState)

/-- Model of `sessions.get(sid)` with the fresh-state default of lines 425-426. -/
def getSession (ss : Sessions) (sid : Str) : SessState :=
  (List.lookup sid ss).getD ⟨[], none⟩

/-- Model of `sessions.set(sid, st)`. -/
def setSession (ss : Sessions) (sid : Str) (st : SessState) : Sessions :=
  if (List.lookup sid ss).isSome then
    ss.map (fun p => if p.1 == sid then (p.1, st) else p)
  else (sid, st) :: ss

/-- Append a user/assistant pair and keep the last six entries
(`state.history.slice(-6)`). -/
def pushHistory (st : SessState) (u a : Str) : SessState :=
  let h := st.history ++
    [⟨"user".data, clamp (sanitizeField u)⟩, ⟨"assistant".data, clamp a⟩]
  { st with history := h.drop (h.length - 6) }

/-- The regex `/<strong>([^<]+)<\/strong>/i` anchored at one position, returning the
capture and the remainder. -/
def strongAt (l : Str) : Option (Str × Str) :=
  (eatCI ("<strong>".data) l).bind fun r1 =>
  match r1.takeWhile (fun c => !(c == '<')) with
  | [] => none
  | cap =>
    (eatCI ("</strong>".data) (r1.dropWhile (fun c => !(c == '<')))).map fun r2 => (cap, r2)

/-- Model of `<a href="(https?://(docs.google.com/forms|forms.gle)/[^"]+)"` anchored
at one position. -/
def formsHrefAt (l : Str) : Option Str :=
  (eatCI ("<a href=\"".data) l).bind fun r1 =>
  (firstSome (eatCI ("https".data) r1) (eatCI ("http".data) r1)).bind fun r2 =>
  (eatCI ("://".data) r2).bind fun r3 =>
  (firstSome (eatCI ("docs.google.com/forms".data) r3) (eatCI ("forms.gle".data) r3)).bind
    fun r4 =>
  (eatCI ("/".data) r4).bind fun r5 =>
  (span1 (fun c => !(c == '"')) r5).bind fun r6 =>
  eatCS ("\"".data) r6

/-- The capture of `/<strong>([^<]+)<\/strong>.*?<a href="(https?...)"/i`
(lines 460 and 517): the first `<strong>` title followed somewhere by a
forms anchor. The regex dot does not cross a newline; deterministic renderer
output is single-line, so the search may run over the whole remainder. -/
def captureTitle : Str → Option Str
  | [] => none
  | c :: rest =>
    match strongAt (c :: rest) with
    | some (cap, r2) =>
      if (findMatch formsHrefAt r2).isSome then some cap else captureTitle rest
    | none => captureTitle rest

/-- Model of `lastSuggestedCourse` update (lines 459-465): only an eligible, open
course whose exact title was bolded next to a forms link is remembered. -/
def updateSuggested (cursos : List Course) (out : Str) (st : SessState) : SessState :=
  match captureTitle out with
  | none => st
  | some cap =>
    match (cursosElegibles cursos).find?
        (fun c => c.titulo == trimJS cap && c.estado == "inscripcion_abierta".data) with
    | some course => { st with lastSuggestedCourse := some (course.titulo, course.formulario) }
    | none => st

/-- The observable outcome of one `/api/chat` request. `llmDelegate` marks
the turn handed to the external text-generation service (the await of lines
495-499); everything after that await is outside this pure model. -/
inductive Response where
  | badRequest (error : Str)
  | ok (message : Str)
  | llmDelegate
deriving DecidableEq

/-- The deterministic part of `app.post('/api/chat')` (lines 418-468): empty
check, session fetch, hard-rule short-circuit, deterministic router, else
delegation. -/
def handleChat (cursos : List Course) (sessions : Sessions) (sid : Str) (msgRaw : Str) :
    Response × Sessions :=
  let userMessage := trimJS msgRaw
  if userMessage.isEmpty then (.badRequest ("Mensaje vacío".data), sessions)
  else
    let state := getSession sessions sid
    match cursos.find? (fun c =>
        (c.estado == "en_curso".data || c.estado == "finalizado".data) &&
        isDirectTitleMention userMessage c.titulo) with
    | some duro =>
      let msg := if duro.estado == "finalizado".data then refusalFinalizado duro
        else refusalEnCurso duro
      (.ok msg, setSession sessions sid (pushHistory state userMessage msg))
    | none =>
      match renderByIntent cursos (detectIntent cursos userMessage) with
      | some routed =>
        let msgOut := sanitizeEnrollmentLinksByLine cursos routed
        (.ok msgOut,
          setSession sessions sid
            (updateSuggested cursos msgOut (pushHistory state userMessage msgOut)))
      | none => (.llmDelegate, setSession sessions sid state)

/- ### Concrete sample data for counterexamples and witnesses -/

/-- A minimal picked course with the given id, title and state. -/
def mkCourse (i : Nat) (t e : Str) : Course :=
  { id := i, titulo := t, descripcion_breve := [], descripcion_completa := [],
    actividades := [], duracion_total := [], fecha_inicio := [],
    fecha_inicio_legible := [], fecha_fin := [], fecha_fin_legible := [],
    frecuencia_semanal := "otro".data, duracion_clase_horas := [],
    dias_horarios := [], localidades := [], direcciones := [],
    requisitos := ⟨false, false, false, false, []⟩, materiales := ⟨[], []⟩,
    formulario := [], imagen := [], estado := e }

/-- A finished course, as in the spec scenario. -/
def demoGastro : Course := mkCourse 42 ("Curso de Gastronomía".data) ("finalizado".data)

/-- An enrollment-open course with a forms URL. -/
def demoFlores : Course :=
  { mkCourse 3 ("Curso de Flores".data) ("inscripcion_abierta".data) with
    formulario := "https://forms.gle/abc123".data }

/-- An upcoming course whose id appears in the sanitizer counterexample. -/
def demoProximo : Course :=
  { mkCourse 7 ("Curso de Celulares".data) ("proximo".data) with
    formulario := "https://forms.gle/xyz".data }

/-- Six eligible courses: more than five listing entries. -/
def demo6 : List Course :=
  [mkCourse 1 ("a".data) ("proximo".data), mkCourse 2 ("b".data) ("proximo".data),
   mkCourse 3 ("c".data) ("proximo".data), mkCourse 4 ("d".data) ("proximo".data),
   mkCourse 5 ("e".data) ("proximo".data), mkCourse 6 ("f".data) ("proximo".data)]

/-- A minimal raw record with the given state. -/
def mkRaw (e : Str) : RawCourse :=
  { id := 1, titulo := [], descripcion_breve := [], descripcion_completa := [],
    actividades := [], duracion_total := [], fecha_inicio := [], fecha_fin := [],
    frecuencia_semanal := none, duracion_clase_horas := [], dias_horarios := [],
    localidades := [], direcciones := [], requisitos := none, materiales := none,
    formulario := [], imagen := [], estado := e }

/-- A line the LLM could produce: a forms anchor for course 7 phrased outside
the two patterns the sanitizer rewrites. -/
def badLine : Str :=
  "Inscribite: <a href=\"https://forms.gle/xyz\" target=\"_blank\">Inscribirte</a> (navigateToCourse:7)".data

/-- The dash-phrased listing line with an enrollment anchor for course 7. -/
def demoDashLine : Str :=
  "• <strong>Curso de Celulares</strong> — Próximo (inscripción aún no habilitada) — <a href=\"https://forms.gle/xyz\" target=\"_blank\" rel=\"noopener\">Inscribirte</a> — (navigateToCourse:7)".data

/-- The sentence-phrased enrollment line for course 7. -/
def demoTePodesLine : Str :=
  "En el curso <strong>Curso de Celulares</strong>, te podés inscribir acá: <a href=\"https://forms.gle/xyz\" target=\"_blank\" rel=\"noopener\">Inscribirte</a>.<br>Acciones: Más info (navigateToCourse:7)".data

/- ### Character-table lemmas -/

theorem mem_of_lookup_some {α β : Type} [BEq α] [LawfulBEq α] {l : List (α × β)} {k : α}
    {v : β} (h : List.lookup k l = some v) : (k, v) ∈ l := by
  induction l with
  | nil => simp [List.lookup] at h
  | cons p t ih =>
    obtain ⟨a, b⟩ := p
    rw [List.lookup] at h
    by_cases hk : k = a
    · subst hk; simp at h; subst h; exact List.mem_cons_self _ _
    · have : (k == a) = false := beq_false_of_ne hk
      rw [this] at h
      exact List.mem_cons_of_mem _ (ih h)

theorem lower_values_fixed : ∀ p ∈ lowerPairs, List.lookup p.2 lowerPairs = none := by
  decide

theorem jsLower_idem (c : Char) : jsLower (jsLower c) = jsLower c := by
  unfold jsLower
  cases h : List.lookup c lowerPairs with
  | none => simp [h]
  | some d =>
    have hfix := lower_values_fixed (c, d) (mem_of_lookup_some h)
    simp only [h, Option.getD_some]
    simp only at hfix
    simp [hfix]

theorem nfd_values_clean :
    ∀ p ∈ nfdPairs, List.lookup p.1 lowerPairs = none →
      ∀ d ∈ p.2,
        isCombining d = true ∨
          (List.lookup d lowerPairs = none ∧ List.lookup d nfdPairs = none) := by
  decide

/-- The output of `jsLower` is never an uppercase table key. -/
theorem lookup_jsLower_none (c : Char) : List.lookup (jsLower c) lowerPairs = none := by
  unfold jsLower
  cases h : List.lookup c lowerPairs with
  | none => simp [h]
  | some d =>
    have hfix := lower_values_fixed (c, d) (mem_of_lookup_some h)
    simpa using hfix

/-- Any non-combining character produced by lowercasing-then-decomposing is a
fixed point of both operations. -/
theorem keyClean {c0 d : Char} (hd : d ∈ nfdChar (jsLower c0))
    (hc : isCombining d = false) : jsLower d = d ∧ nfdChar d = [d] := by
  unfold nfdChar at hd
  cases h : List.lookup (jsLower c0) nfdPairs with
  | none =>
    rw [h] at hd
    simp at hd
    subst hd
    refine ⟨jsLower_idem c0, ?_⟩
    unfold nfdChar
    simp [h]
  | some ds =>
    rw [h] at hd
    simp at hd
    rcases nfd_values_clean _ (mem_of_lookup_some h) (lookup_jsLower_none c0) d hd with
      h2 | ⟨hl, hn⟩
    · rw [h2] at hc; cases hc
    · refine ⟨?_, ?_⟩
      · unfold jsLower; simp [hl]
      · unfold nfdChar; simp [hn]

theorem space_not_word {c : Char} (h : isSpaceChar c = true) : isWordChar c = false := by
  unfold isSpaceChar at h
  simp only [Bool.or_eq_true, beq_iff_eq] at h
  rcases h with ((((h|h)|h)|h)|h)|h <;> subst h <;> decide

theorem word_not_space {c : Char} (h : isWordChar c = true) : isSpaceChar c = false := by
  cases hs : isSpaceChar c with
  | false => rfl
  | true => rw [space_not_word hs] at h; cases h

/- ### Generic list identities -/

theorem map_self_of {α : Type} {f : α → α} {l : List α} (h : ∀ c ∈ l, f c = c) :
    l.map f = l := by
  induction l with
  | nil => rfl
  | cons c r ih =>
    simp only [List.map_cons]
    rw [h c (List.mem_cons_self c r), ih (fun d hd => h d (List.mem_cons_of_mem c hd))]

theorem flatMap_self_of {α : Type} {f : α → List α} {l : List α}
    (h : ∀ c ∈ l, f c = [c]) : l.flatMap f = l := by
  induction l with
  | nil => rfl
  | cons c r ih =>
    rw [List.flatMap_cons, h c (List.mem_cons_self c r),
      ih (fun d hd => h d (List.mem_cons_of_mem c hd))]
    rfl

theorem filter_self_of {α : Type} {p : α → Bool} {l : List α}
    (h : ∀ c ∈ l, p c = true) : l.filter p = l := by
  induction l with
  | nil => rfl
  | cons c r ih =>
    rw [List.filter_cons_of_pos (h c (List.mem_cons_self c r)),
      ih (fun d hd => h d (List.mem_cons_of_mem c hd))]

/- ### Whitespace collapsing and trimming -/

theorem spacingOk_collapseAux (l : Str) : ∀ b, spacingOk b (collapseAux b l) = true := by
  induction l with
  | nil => intro b; rfl
  | cons c r ih =>
    intro b
    by_cases hs : isSpaceChar c = true
    · cases b with
      | true => simp only [collapseAux, hs, if_true]; exact ih true
      | false =>
        simp only [collapseAux, hs, if_true, if_false, Bool.false_eq_true]
        simp only [spacingOk, hs, if_true, Bool.not_false, Bool.true_and]
        exact ih true
    · rw [Bool.not_eq_true] at hs
      simp only [collapseAux, hs, Bool.false_eq_true, if_false]
      simp only [spacingOk, hs, Bool.false_eq_true, if_false]
      exact ih false

theorem mem_collapseAux {c : Char} : ∀ (l : Str) (b : Bool), c ∈ collapseAux b l →
    c = ' ' ∨ (c ∈ l ∧ isSpaceChar c = false) := by
  intro l
  induction l with
  | nil => intro b h; cases h
  | cons d r ih =>
    intro b h
    by_cases hs : isSpaceChar d = true
    · rw [collapseAux, if_pos hs] at h
      cases b with
      | true =>
        rcases ih true (by simpa using h) with h1 | ⟨h1, h2⟩
        · exact Or.inl h1
        · exact Or.inr ⟨List.mem_cons_of_mem d h1, h2⟩
      | false =>
        simp only [if_false, Bool.false_eq_true, List.mem_cons] at h
        rcases h with h | h
        · exact Or.inl h
        · rcases ih true h with h1 | ⟨h1, h2⟩
          · exact Or.inl h1
          · exact Or.inr ⟨List.mem_cons_of_mem d h1, h2⟩
    · rw [Bool.not_eq_true] at hs
      rw [collapseAux, if_neg (by simp [hs])] at h
      rcases List.mem_cons.mp h with h | h
      · subst h; exact Or.inr ⟨List.mem_cons_self c r, hs⟩
      · rcases ih false h with h1 | ⟨h1, h2⟩
        · exact Or.inl h1
        · exact Or.inr ⟨List.mem_cons_of_mem d h1, h2⟩

theorem trimEnd_isPre : ∀ l : Str, trimEnd l <+: l := by
  intro l
  induction l with
  | nil => exact List.prefix_refl _
  | cons c r ih =>
    rw [trimEnd]
    by_cases h : ((trimEnd r).isEmpty && isSpaceChar c) = true
    · rw [if_pos h]
      exact List.nil_prefix
    · rw [if_neg h]
      exact List.cons_prefix_cons.mpr ⟨rfl, ih⟩

theorem spacingOk_of_pre : ∀ (l1 l2 : Str) (b : Bool), l1 <+: l2 →
    spacingOk b l2 = true → spacingOk b l1 = true := by
  intro l1
  induction l1 with
  | nil => intro l2 b _ _; rfl
  | cons c r1 ih =>
    intro l2 b hp h2
    obtain ⟨t, ht⟩ := hp
    subst ht
    rw [List.cons_append] at h2
    by_cases hs : isSpaceChar c = true
    · rw [spacingOk, if_pos hs] at h2 ⊢
      rcases Bool.and_eq_true_iff.mp h2 with ⟨hb, hrest⟩
      exact Bool.and_eq_true_iff.mpr ⟨hb, ih (r1 ++ t) true ⟨t, rfl⟩ hrest⟩
    · rw [spacingOk, if_neg (by simp [Bool.not_eq_true] at hs; simp [hs])] at h2 ⊢
      exact ih (r1 ++ t) false ⟨t, rfl⟩ h2

theorem endOk_trimEnd : ∀ l : Str, endOk (trimEnd l) = true := by
  intro l
  induction l with
  | nil => rfl
  | cons c r ih =>
    rw [trimEnd]
    by_cases h : ((trimEnd r).isEmpty && isSpaceChar c) = true
    · rw [if_pos h]; rfl
    · rw [if_neg h]
      cases hr : (trimEnd r).isEmpty with
      | true =>
        rw [List.isEmpty_iff] at hr
        rw [hr]
        rw [endOk, if_pos (by rfl)]
        rw [hr] at h
        simp only [List.isEmpty_nil, Bool.true_and] at h
        simp [h]
      | false =>
        rw [endOk, if_neg (by simp [hr])]
        exact ih

theorem collapseAux_id : ∀ (l : Str) (b : Bool), spacingOk b l = true →
    (∀ c ∈ l, isSpaceChar c = false ∨ c = ' ') → collapseAux b l = l := by
  intro l
  induction l with
  | nil => intro b _ _; rfl
  | cons c r ih =>
    intro b h1 h2
    by_cases hs : isSpaceChar c = true
    · have hc : c = ' ' := by
        rcases h2 c (List.mem_cons_self c r) with h | h
        · rw [h] at hs; cases hs
        · exact h
      rw [spacingOk, if_pos hs] at h1
      rcases Bool.and_eq_true_iff.mp h1 with ⟨hb, hrest⟩
      have hbf : b = false := by
        cases b with
        | false => rfl
        | true => cases hb
      subst hbf
      rw [collapseAux, if_pos hs]
      simp only [if_false, Bool.false_eq_true]
      rw [ih true hrest (fun d hd => h2 d (List.mem_cons_of_mem c hd)), hc]
    · rw [Bool.not_eq_true] at hs
      rw [collapseAux, if_neg (by simp [hs])]
      rw [spacingOk, if_neg (by simp [hs])] at h1
      rw [ih false h1 (fun d hd => h2 d (List.mem_cons_of_mem c hd))]

theorem trimEnd_id : ∀ l : Str, endOk l = true → trimEnd l = l := by
  intro l
  induction l with
  | nil => intro _; rfl
  | cons c r ih =>
    intro h
    cases hr : r.isEmpty with
    | true =>
      rw [List.isEmpty_iff] at hr
      subst hr
      rw [endOk, if_pos (by rfl)] at h
      rw [Bool.not_eq_true'] at h
      rw [trimEnd, if_neg (by simp [h])]
      rfl
    | false =>
      rw [endOk, if_neg (by simp [hr])] at h
      have hr2 := ih h
      rw [trimEnd, hr2, if_neg]
      simp only [Bool.and_eq_true, List.isEmpty_iff, not_and]
      intro he
      rw [he] at hr
      simp at hr

/- ### The output of `normalize` is canonical -/

theorem spacingOk_normalize (s : Str) : spacingOk true (normalize s) = true :=
  spacingOk_of_pre _ _ true (trimEnd_isPre _) (spacingOk_collapseAux _ true)

theorem endOk_normalize (s : Str) : endOk (normalize s) = true := endOk_trimEnd _

theorem mem_normalize_clean {s : Str} {c : Char} (h : c ∈ normalize s) :
    c = ' ' ∨ (jsLower c = c ∧ nfdChar c = [c] ∧ isCombining c = false ∧
      isWordChar c = true) := by
  unfold normalize at h
  have h1 : c ∈ collapseAux true (preNorm s) := (trimEnd_isPre _).sublist.subset h
  rcases mem_collapseAux _ true h1 with h2 | ⟨h2, hsp⟩
  · exact Or.inl h2
  · unfold preNorm at h2
    rcases List.mem_map.mp h2 with ⟨d, hd, hds⟩
    unfold toSpace at hds
    by_cases hw : (isWordChar d || isSpaceChar d) = true
    · rw [if_pos hw] at hds
      subst hds
      rcases List.mem_filter.mp hd with ⟨hdm, hdc⟩
      rw [Bool.not_eq_true'] at hdc
      rcases List.mem_flatMap.mp hdm with ⟨a, ha, hda⟩
      rcases List.mem_map.mp ha with ⟨c0, _, hc0⟩
      subst hc0
      rcases keyClean hda hdc with ⟨k1, k2⟩
      rcases Bool.or_eq_true_iff.mp hw with hww | hws
      · exact Or.inr ⟨k1, k2, hdc, hww⟩
      · rw [hws] at hsp; cases hsp
    · rw [if_neg hw] at hds
      subst hds
      rw [show isSpaceChar ' ' = true from rfl] at hsp
      cases hsp

theorem preNorm_normalize (s : Str) : preNorm (normalize s) = normalize s := by
  unfold preNorm
  rw [@map_self_of Char jsLower (normalize s)
    (fun c hc => by
      rcases mem_normalize_clean hc with h | ⟨h, _, _, _⟩
      · rw [h]; decide
      · exact h)]
  rw [@flatMap_self_of Char nfdChar (normalize s)
    (fun c hc => by
      rcases mem_normalize_clean hc with h | ⟨_, h, _, _⟩
      · rw [h]; decide
      · exact h)]
  rw [filter_self_of
    (fun c hc => by
      rcases mem_normalize_clean hc with h | ⟨_, _, h, _⟩
      · rw [h]; decide
      · rw [h]; rfl)]
  exact map_self_of
    (fun c hc => by
      unfold toSpace
      rcases mem_normalize_clean hc with h | ⟨_, _, _, h⟩
      · rw [h]; decide
      · rw [h]; rfl)

/-- Claim C7 core: `normalize` is idempotent. -/
theorem normalize_normalize (s : Str) : normalize (normalize s) = normalize s := by
  conv_lhs => rw [normalize, preNorm_normalize]
  rw [collapseAux_id _ true (spacingOk_normalize s)
    (fun c hc => by
      rcases mem_normalize_clean hc with h | ⟨_, _, _, h⟩
      · exact Or.inr h
      · exact Or.inl (word_not_space h))]
  exact trimEnd_id _ (endOk_normalize s)

/- ### Normalization of a substring survives inside a superstring -/

theorem flagAfter_cons (b : Bool) (c : Char) (r : Str) :
    flagAfter b (c :: r) = flagAfter (isSpaceChar c) r := by
  cases r with
  | nil => rfl
  | cons d t => rfl

theorem collapseAux_append (x : Str) : ∀ (y : Str) (b : Bool),
    collapseAux b (x ++ y) = collapseAux b x ++ collapseAux (flagAfter b x) y := by
  induction x with
  | nil => intro y b; rfl
  | cons c r ih =>
    intro y b
    rw [List.cons_append, flagAfter_cons]
    by_cases hs : isSpaceChar c = true
    · rw [collapseAux, if_pos hs, collapseAux, if_pos hs, hs]
      cases b with
      | true => simpa using ih y true
      | false => simpa using ih y true
    · rw [Bool.not_eq_true] at hs
      rw [collapseAux, if_neg (by simp [hs]), collapseAux, if_neg (by simp [hs]), hs]
      simpa using ih y false

theorem trimEnd_append (x : Str) : ∀ y : Str,
    trimEnd (x ++ y) = if (trimEnd y).isEmpty then trimEnd x else x ++ trimEnd y := by
  induction x with
  | nil =>
    intro y
    by_cases h : (trimEnd y).isEmpty = true
    · rw [if_pos h]
      simp only [List.nil_append]
      rw [List.isEmpty_iff.mp h]
      rfl
    · rw [if_neg h]
      simp only [List.nil_append]
  | cons c r ih =>
    intro y
    rw [List.cons_append, trimEnd, ih y]
    by_cases h : (trimEnd y).isEmpty = true
    · rw [if_pos h, if_pos h, trimEnd]
    · rw [if_neg h, if_neg h, if_neg]
      · rw [List.cons_append]
      · simp only [Bool.and_eq_true, List.isEmpty_iff, not_and, List.append_eq_nil]
        intro hcon
        rcases hcon with ⟨_, hy⟩
        rw [hy] at h
        simp at h

theorem collapseAux_false_or (w : Str) :
    collapseAux false w = collapseAux true w ∨
      collapseAux false w = ' ' :: collapseAux true w := by
  cases w with
  | nil => exact Or.inl rfl
  | cons c r =>
    by_cases hs : isSpaceChar c = true
    · refine Or.inr ?_
      rw [collapseAux, if_pos hs, collapseAux, if_pos hs]
      simp
    · exact Or.inl (by rw [collapseAux, if_neg hs, collapseAux, if_neg hs])

theorem canonN_suffix_cons (c : Char) (w : Str) : canonN w <:+ canonN (c :: w) := by
  by_cases hs : isSpaceChar c = true
  · have hcol : collapseAux true (c :: w) = collapseAux true w := by
      rw [collapseAux, if_pos hs]
      exact if_pos rfl
    rw [canonN, canonN, hcol]
  · rw [Bool.not_eq_true] at hs
    rw [canonN, canonN, collapseAux, if_neg (by simp [hs])]
    rcases collapseAux_false_or w with h | h
    · rw [h, trimEnd, if_neg (by simp [hs])]
      exact List.suffix_cons c _
    · rw [h]
      by_cases he : (trimEnd (collapseAux true w)).isEmpty = true
      · have hinner : trimEnd (' ' :: collapseAux true w) = [] := by
          rw [trimEnd, if_pos (by simp [he]; decide)]
        rw [trimEnd, hinner, if_neg (by simp [hs])]
        rw [List.isEmpty_iff.mp he]
        exact List.nil_suffix
      · have hinner : trimEnd (' ' :: collapseAux true w) =
            ' ' :: trimEnd (collapseAux true w) := by
          rw [trimEnd, if_neg (by simp [he])]
        rw [trimEnd, hinner, if_neg (by simp)]
        exact (List.suffix_cons ' ' _).trans (List.suffix_cons c _)

theorem canonN_suffix_app (x : Str) : ∀ w : Str, canonN w <:+ canonN (x ++ w) := by
  induction x with
  | nil => intro w; exact List.suffix_refl _
  | cons c r ih =>
    intro w
    exact (ih w).trans (canonN_suffix_cons c (r ++ w))

theorem canonN_pre_app (m z : Str) : canonN m <+: canonN (m ++ z) := by
  rw [canonN, canonN, collapseAux_append, trimEnd_append]
  by_cases h : (trimEnd (collapseAux (flagAfter true m) z)).isEmpty = true
  · rw [if_pos h]
  · rw [if_neg h]
    exact (trimEnd_isPre _).trans (List.prefix_append _ _)

theorem preNorm_append (x y : Str) : preNorm (x ++ y) = preNorm x ++ preNorm y := by
  unfold preNorm
  rw [List.map_append, List.flatMap_append, List.filter_append, List.map_append]

theorem normalize_within (u q v : Str) : normalize q <:+: normalize (u ++ q ++ v) := by
  have h1 : normalize q <+: canonN (preNorm q ++ preNorm v) := canonN_pre_app _ _
  have h2 : canonN (preNorm q ++ preNorm v) <:+ canonN (preNorm u ++ (preNorm q ++ preNorm v)) :=
    canonN_suffix_app _ _
  have h3 : normalize (u ++ q ++ v) = canonN (preNorm u ++ (preNorm q ++ preNorm v)) := by
    rw [normalize, List.append_assoc, preNorm_append, preNorm_append]
    rfl
  rw [h3]
  obtain ⟨t, ht⟩ := h1
  obtain ⟨s2, hs2⟩ := h2
  exact ⟨s2, t, by rw [← hs2, ← ht, List.append_assoc]⟩

theorem mention_nonempty {q t : Str} (h : isDirectTitleMention q t = true) :
    (normalize q).isEmpty = false ∧ (normalize t).isEmpty = false := by
  by_cases hc : ((normalize q).isEmpty || (normalize t).isEmpty) = true
  · exfalso
    simp only [isDirectTitleMention] at h
    rw [if_pos hc] at h
    cases h
  · simp only [Bool.or_eq_true, not_or, Bool.not_eq_true] at hc
    exact ⟨hc.1, hc.2⟩

/- ### Occurrences of a needle in a concatenation -/

theorem infix_append_split {nd x y : Str} (h : nd <:+: x ++ y) :
    nd <:+: x ∨ nd <:+: y ∨
      ∃ a b, nd = a ++ b ∧ a ≠ [] ∧ b ≠ [] ∧ a <:+ x ∧ b <+: y := by
  obtain ⟨s, t, hst⟩ := h
  rw [List.append_assoc] at hst
  rcases List.append_eq_append_iff.mp hst with ⟨a', hx, hrest⟩ | ⟨c', _, hy⟩
  · rcases List.append_eq_append_iff.mp hrest with ⟨w, ha', _⟩ | ⟨w, hnd, hyw⟩
    · exact Or.inl ⟨s, w, by rw [hx, ha', ← List.append_assoc]⟩
    · rcases eq_or_ne a' [] with rfl | hane
      · refine Or.inr (Or.inl ?_)
        simp only [List.nil_append] at hnd
        exact ⟨[], t, by rw [List.nil_append, hnd, hyw]⟩
      · rcases eq_or_ne w [] with rfl | hwne
        · refine Or.inl ?_
          rw [List.append_nil] at hnd
          exact ⟨s, [], by rw [List.append_nil, hx, hnd]⟩
        · exact Or.inr (Or.inr ⟨a', w, hnd, hane, hwne, ⟨s, hx.symm⟩, ⟨t, hyw.symm⟩⟩)
  · refine Or.inr (Or.inl ⟨c', t, ?_⟩)
    rw [hy, List.append_assoc]

/-- Refute a straddling occurrence from the last character of the left part. -/
theorem not_within_app_last {nd x rest : Str} (hx : ¬ (nd <:+: x)) (hrest : ¬ (nd <:+: rest))
    (hlast : ∀ c, x.getLast? = some c → c ∉ nd) : ¬ (nd <:+: x ++ rest) := by
  intro h
  rcases infix_append_split h with h | h | ⟨a, b, hab, ha, _, hsuf, _⟩
  · exact hx h
  · exact hrest h
  · rcases List.eq_nil_or_concat' a with rfl | ⟨a', c0, rfl⟩
    · exact ha rfl
    obtain ⟨pre, hpre⟩ := hsuf
    have hxl : x.getLast? = some c0 := by
      rw [← hpre, ← List.append_assoc, List.getLast?_concat]
    refine hlast c0 hxl ?_
    rw [hab]
    exact List.mem_append_left b (List.mem_append_right a' (List.mem_cons_self _ _))

/-- Refute a straddling occurrence from the first character of the needle. -/
theorem not_within_app_first {nd x rest : Str} (hx : ¬ (nd <:+: x)) (hrest : ¬ (nd <:+: rest))
    (hfirst : ∀ c, nd.head? = some c → c ∉ x) : ¬ (nd <:+: x ++ rest) := by
  intro h
  rcases infix_append_split h with h | h | ⟨a, b, hab, ha, _, hsuf, _⟩
  · exact hx h
  · exact hrest h
  · obtain ⟨c0, a', rfl⟩ := List.exists_cons_of_ne_nil ha
    have hc0 : nd.head? = some c0 := by rw [hab]; rfl
    exact hfirst c0 hc0 (hsuf.sublist.subset (List.mem_cons_self _ _))

/-- Refute a straddling occurrence from the first character of the right part. -/
theorem not_within_app_head {nd x rest : Str} (hx : ¬ (nd <:+: x)) (hrest : ¬ (nd <:+: rest))
    (hhead : ∀ c, rest.head? = some c → c ∉ nd) : ¬ (nd <:+: x ++ rest) := by
  intro h
  rcases infix_append_split h with h | h | ⟨a, b, hab, _, hb, _, hpre⟩
  · exact hx h
  · exact hrest h
  · obtain ⟨c0, b', rfl⟩ := List.exists_cons_of_ne_nil hb
    obtain ⟨tl, htl⟩ := hpre
    have hh : rest.head? = some c0 := by rw [← htl]; rfl
    exact hhead c0 hh (by rw [hab]; exact List.mem_append_right a (List.mem_cons_self _ _))

/-- A needle containing a character absent from `l` does not occur in `l`. -/
theorem not_within_of_mem_not_mem {nd l : Str} {c : Char} (hc : c ∈ nd) (hl : c ∉ l) :
    ¬ (nd <:+: l) := fun h => hl (h.sublist.subset hc)

/-- Append step with a concrete left part: refute straddles from its last
character. -/
theorem step_concrete {nd rest : Str} (x : Str) (hx : ¬ (nd <:+: x))
    (hl : ∀ c ∈ nd, x.getLast? ≠ some c) (hrest : ¬ (nd <:+: rest)) :
    ¬ (nd <:+: x ++ rest) :=
  not_within_app_last hx hrest (fun c hc hmem => hl c hmem hc)

/-- Append step with a concrete right head: refute straddles from it. -/
theorem step_head {nd x rest : Str} (hx : ¬ (nd <:+: x))
    (hh : ∀ c ∈ nd, rest.head? ≠ some c) (hrest : ¬ (nd <:+: rest)) :
    ¬ (nd <:+: x ++ rest) :=
  not_within_app_head hx hrest (fun c hc hmem => hh c hmem hc)

theorem mem_natDigitsAux : ∀ {fuel n : Nat} {c : Char}, c ∈ natDigitsAux fuel n →
    c.isDigit = true := by
  intro fuel
  induction fuel with
  | zero => intro n c h; cases h
  | succ f ih =>
    intro n c h
    rw [natDigitsAux] at h
    by_cases hn : n < 10
    · rw [if_pos hn] at h
      rcases List.mem_singleton.mp h with rfl
      have hall : ∀ m, m < 10 → (Nat.digitChar m).isDigit = true := by decide
      exact hall n hn
    · rw [if_neg hn] at h
      rcases List.mem_append.mp h with h | h
      · exact ih h
      · rcases List.mem_singleton.mp h with rfl
        have hall : ∀ m, m < 10 → (Nat.digitChar m).isDigit = true := by decide
        exact hall _ (Nat.mod_lt _ (by decide))

theorem mem_natDigits {n : Nat} {c : Char} (h : c ∈ natDigits n) : c.isDigit = true :=
  mem_natDigitsAux h

theorem natDigits_ne_nil (n : Nat) : natDigits n ≠ [] := by
  rw [natDigits, natDigitsAux]
  by_cases hn : n < 10
  · rw [if_pos hn]; simp
  · rw [if_neg hn]; simp

theorem natDigits_head_digit (n : Nat) : ∀ c, (natDigits n).head? = some c →
    c.isDigit = true := by
  intro c hc
  cases hd : natDigits n with
  | nil => exact absurd hd (natDigits_ne_nil n)
  | cons d r =>
    rw [hd] at hc
    simp only [List.head?_cons, Option.some.injEq] at hc
    subst hc
    exact mem_natDigits (by rw [hd]; exact List.mem_cons_self _ _)

/- ### State, label and call-to-action facts -/

theorem lookup_none {α β : Type} [BEq α] [LawfulBEq α] {l : List (α × β)} {k : α}
    (h : k ∉ l.map (fun p => p.1)) : List.lookup k l = none := by
  cases hl : List.lookup k l with
  | none => rfl
  | some v =>
    exact absurd (List.mem_map_of_mem (fun p => p.1) (mem_of_lookup_some hl)) h

theorem linkFrag_empty {c : Course} (h : c.estado ≠ "inscripcion_abierta".data) :
    linkFrag c = [] := by
  unfold linkFrag
  rw [if_neg]
  simp only [Bool.and_eq_true, beq_iff_eq, not_and]
  intro hc
  exact absurd hc h

theorem acciones_plain {c : Course} (h : c.estado ≠ "inscripcion_abierta".data) :
    accionesHTML c =
      "Acciones: Más info (navigateToCourse:".data ++ natDigits c.id ++ ")".data := by
  unfold accionesHTML
  rw [if_neg (by
    simp only [Bool.and_eq_true, beq_iff_eq, not_and]
    intro hc
    exact absurd hc h), List.append_nil]

theorem eligible_not_blocked {c : Course} (h : isEligible c = true) :
    c.estado ≠ "en_curso".data ∧ c.estado ≠ "finalizado".data := by
  unfold isEligible at h
  constructor
  · intro he
    rw [he] at h
    exact absurd h (by decide)
  · intro he
    rw [he] at h
    exact absurd h (by decide)

theorem mem_elegibles_eligible {cursos : List Course} {c : Course}
    (h : c ∈ cursosElegibles cursos) : isEligible c = true := (List.mem_filter.mp h).2

theorem noLT_estadoLegible (c : Course) : ('<' : Char) ∉ estadoLegible c := by
  unfold estadoLegible
  cases h : List.lookup (if c.estado.isEmpty then "proximo".data else c.estado)
      ESTADO_LABEL with
  | none =>
    simp only [h, Option.getD_none]
    decide
  | some v =>
    have hall : ∀ p ∈ ESTADO_LABEL, ('<' : Char) ∉ p.2 := by decide
    simpa [h] using hall _ (mem_of_lookup_some h)

theorem estadoLegible_mem_labels (c : Course) :
    estadoLegible c ∈ ESTADO_LABEL.map (fun p => p.2) := by
  unfold estadoLegible
  cases h : List.lookup (if c.estado.isEmpty then "proximo".data else c.estado)
      ESTADO_LABEL with
  | none =>
    simp only [h, Option.getD_none]
    decide
  | some v =>
    simpa [h] using List.mem_map_of_mem (fun p => p.2) (mem_of_lookup_some h)

/- ### No enrollment anchor in deterministic output for non-open courses -/

theorem step_first_notmem {nd x rest : Str} {c0 : Char} (hc0 : nd.head? = some c0)
    (hx : ¬ (nd <:+: x)) (h0 : c0 ∉ x) (hrest : ¬ (nd <:+: rest)) :
    ¬ (nd <:+: x ++ rest) := by
  refine not_within_app_first hx hrest ?_
  intro ch hch
  rw [hc0] at hch
  injection hch with hh
  subst hh
  exact h0

theorem step_head_notmem {nd x rest : Str} {c0 : Char} (hr : rest.head? = some c0)
    (hx : ¬ (nd <:+: x)) (h0 : c0 ∉ nd) (hrest : ¬ (nd <:+: rest)) :
    ¬ (nd <:+: x ++ rest) := by
  refine not_within_app_head hx hrest ?_
  intro ch hch hmem
  rw [hr] at hch
  injection hch with hh
  subst hh
  exact h0 hmem

theorem not_mem_natDigits_of_not_digit {c : Char} (h : c.isDigit = false) (n : Nat) :
    c ∉ natDigits n := fun hm => by rw [mem_natDigits hm] at h; cases h

theorem anchor_free_digits (n : Nat) : ¬ (("<a".data : Str) <:+: natDigits n) :=
  @not_within_of_mem_not_mem ("<a".data) (natDigits n) '<' (by decide)
    (not_mem_natDigits_of_not_digit (by decide) n)

theorem anchor_free_itemListado {c : Course} (hne : c.estado ≠ "inscripcion_abierta".data)
    (ht : ('<' : Char) ∉ c.titulo) : ¬ (("<a".data : Str) <:+: itemListado c) := by
  unfold itemListado
  rw [linkFrag_empty hne]
  simp only [List.append_nil, List.append_assoc]
  have h2 : ¬ (("<a".data : Str) <:+: natDigits c.id ++ ")".data) :=
    step_first_notmem rfl (anchor_free_digits c.id)
      (not_mem_natDigits_of_not_digit (by decide) c.id) (by decide)
  have h3 : ¬ (("<a".data : Str) <:+:
      " — (navigateToCourse:".data ++ (natDigits c.id ++ ")".data)) :=
    step_concrete _ (by decide) (by decide) h2
  have h4 : ¬ (("<a".data : Str) <:+: estadoLegible c ++
      (" — (navigateToCourse:".data ++ (natDigits c.id ++ ")".data))) :=
    step_head_notmem rfl
      (not_within_of_mem_not_mem (by decide) (noLT_estadoLegible c)) (by decide) h3
  have h5 : ¬ (("<a".data : Str) <:+: "</strong> — ".data ++ (estadoLegible c ++
      (" — (navigateToCourse:".data ++ (natDigits c.id ++ ")".data)))) :=
    step_concrete _ (by decide) (by decide) h4
  have h6 : ¬ (("<a".data : Str) <:+: c.titulo ++ ("</strong> — ".data ++ (estadoLegible c ++
      (" — (navigateToCourse:".data ++ (natDigits c.id ++ ")".data))))) :=
    step_first_notmem rfl (not_within_of_mem_not_mem (by decide) ht) ht h5
  exact step_concrete _ (by decide) (by decide) h6

theorem anchor_free_acciones {c : Course} (hne : c.estado ≠ "inscripcion_abierta".data) :
    ¬ (("<a".data : Str) <:+: accionesHTML c) := by
  rw [acciones_plain hne]
  simp only [List.append_assoc]
  have h2 : ¬ (("<a".data : Str) <:+: natDigits c.id ++ ")".data) :=
    step_first_notmem rfl (anchor_free_digits c.id)
      (not_mem_natDigits_of_not_digit (by decide) c.id) (by decide)
  exact step_concrete _ (by decide) (by decide) h2

theorem renderCourse_formulario_closed {c : Course}
    (h1 : c.estado ≠ "en_curso".data) (h2 : c.estado ≠ "finalizado".data)
    (h3 : c.estado ≠ "inscripcion_abierta".data) :
    renderCourseIntent (IntentR.formulario c) c =
      "En el curso <strong>".data ++ c.titulo ++
        "</strong>, la inscripción aún no está habilitada.<br>".data ++ accionesHTML c := by
  unfold renderCourseIntent
  rw [if_neg (by simp [h1]), if_neg (by simp [h2])]
  rw [if_neg (by
    simp only [Bool.and_eq_true, beq_iff_eq, not_and]
    intro hc
    exact absurd hc h3)]

theorem anchor_free_formulario_closed {c : Course}
    (h1 : c.estado ≠ "en_curso".data) (h2 : c.estado ≠ "finalizado".data)
    (h3 : c.estado ≠ "inscripcion_abierta".data) (ht : ('<' : Char) ∉ c.titulo) :
    ¬ (("<a".data : Str) <:+: renderCourseIntent (IntentR.formulario c) c) := by
  rw [renderCourse_formulario_closed h1 h2 h3]
  simp only [List.append_assoc]
  have h4 : ¬ (("<a".data : Str) <:+:
      "</strong>, la inscripción aún no está habilitada.<br>".data ++ accionesHTML c) :=
    step_concrete _ (by decide) (by decide) (anchor_free_acciones h3)
  have h5 : ¬ (("<a".data : Str) <:+: c.titulo ++
      ("</strong>, la inscripción aún no está habilitada.<br>".data ++ accionesHTML c)) :=
    step_first_notmem rfl (not_within_of_mem_not_mem (by decide) ht) ht h4
  exact step_concrete _ (by decide) (by decide) h5

/- ### Token sets and Jaccard similarity -/

theorem mem_setOf {α : Type} [BEq α] [LawfulBEq α] {x : α} :
    ∀ {l : List α}, x ∈ setOf l ↔ x ∈ l := by
  intro l
  induction l with
  | nil => simp [setOf]
  | cons y r ih =>
    rw [setOf]
    constructor
    · intro h
      rcases List.mem_cons.mp h with rfl | h
      · exact List.mem_cons_self _ _
      · exact List.mem_cons_of_mem _ (ih.mp (List.mem_of_mem_filter h))
    · intro h
      rcases List.mem_cons.mp h with rfl | h
      · exact List.mem_cons_self _ _
      · by_cases hxy : x = y
        · subst hxy; exact List.mem_cons_self _ _
        · refine List.mem_cons_of_mem _ (List.mem_filter.mpr ⟨ih.mpr h, ?_⟩)
          simp [bne, hxy]

theorem nodup_setOf {α : Type} [BEq α] [LawfulBEq α] : ∀ l : List α, (setOf l).Nodup := by
  intro l
  induction l with
  | nil => exact List.nodup_nil
  | cons y r ih =>
    rw [setOf]
    refine List.nodup_cons.mpr ⟨?_, ih.filter _⟩
    intro hmem
    have h2 := (List.mem_filter.mp hmem).2
    simp at h2

theorem tokensOf_nodup (s : Str) : (tokensOf s).Nodup := nodup_setOf _

/-- The two phrasings the post filter recognizes are indeed stripped or
rewritten for a non-open course, and an open course's anchor is kept: the
filter is limited to these patterns, not broken on them. -/
theorem sanitizer_pattern_behaviour :
    sanitizeEnrollmentLinksByLine [demoProximo] demoDashLine =
        "• <strong>Curso de Celulares</strong> — Próximo (inscripción aún no habilitada) — (navigateToCourse:7)".data ∧
      sanitizeEnrollmentLinksByLine [demoProximo] demoTePodesLine =
        "En el curso <strong>Curso de Celulares</strong>, la inscripción aún no está habilitada.<br>Acciones: Más info (navigateToCourse:7)".data ∧
      sanitizeEnrollmentLinksByLine [demoFlores] (itemListado demoFlores) =
        itemListado demoFlores := by
  decide

/- ### Claims -/

/-- C7: `normalize` is a total function and is idempotent:
`normalize(normalize(s)) = normalize(s)` for every string. -/
theorem claim_C7 (s : Str) : normalize (normalize s) = normalize s := normalize_normalize s

/-- C8 as stated is false: `"!"` is a nonempty string, yet
`similarity("!", "!")` is 0, not 1, because `"!"` normalizes to the empty
token set. -/
theorem claim_C8_cex :
    (['!'] : Str) ≠ [] ∧ jaccard ['!'] ['!'] = 0 ∧ jaccard ['!'] ['!'] ≠ 1 := by
  decide

/-- C8 amended: `0 ≤ similarity(a,b) ≤ 1` always; `similarity(a,a) = 1` for
every string whose normalized token set is nonempty (not every nonempty
string); and the similarity is 0 whenever either token set is empty. -/
theorem claim_C8 (a b : Str) :
    0 ≤ jaccard a b ∧ jaccard a b ≤ 1 ∧
      (tokensOf a ≠ [] → jaccard a a = 1) ∧
      ((tokensOf a = [] ∨ tokensOf b = []) → jaccard a b = 0) := by
  refine ⟨?_, ?_, ?_, ?_⟩
  · simp only [jaccard]
    by_cases hc : ((tokensOf a).isEmpty || (tokensOf b).isEmpty) = true
    · rw [if_pos hc]
    · rw [if_neg hc]
      exact div_nonneg (Nat.cast_nonneg _) (Nat.cast_nonneg _)
  · simp only [jaccard]
    by_cases hc : ((tokensOf a).isEmpty || (tokensOf b).isEmpty) = true
    · rw [if_pos hc]; norm_num
    · rw [if_neg hc]
      refine div_le_one_of_le₀ ?_ (Nat.cast_nonneg _)
      have h1 : ((tokensOf a).filter (fun w => (tokensOf b).contains w)).length ≤
          (tokensOf a).length := List.length_filter_le _ _
      have h2 : (tokensOf a).length ≤ (setOf (tokensOf a ++ tokensOf b)).length := by
        refine List.Subperm.length_le ((tokensOf_nodup a).subperm ?_)
        intro x hx
        exact mem_setOf.mpr (List.mem_append_left _ hx)
      exact_mod_cast le_trans h1 h2
  · intro h
    simp only [jaccard]
    rw [if_neg (by simp [List.isEmpty_iff, h])]
    have hfil : (tokensOf a).filter (fun w => (tokensOf a).contains w) = tokensOf a :=
      filter_self_of (fun w hw => by simpa using (List.elem_iff.mpr hw))
    have hlen : (setOf (tokensOf a ++ tokensOf a)).length = (tokensOf a).length := by
      refine le_antisymm ?_ ?_
      · refine List.Subperm.length_le ((nodup_setOf _).subperm ?_)
        intro x hx
        rcases List.mem_append.mp (mem_setOf.mp hx) with hxx | hxx <;> exact hxx
      · refine List.Subperm.length_le ((tokensOf_nodup a).subperm ?_)
        intro x hx
        exact mem_setOf.mpr (List.mem_append_left _ hx)
    rw [hfil, hlen]
    rw [div_self]
    exact Nat.cast_ne_zero.mpr (by simpa [List.length_eq_zero] using h)
  · intro h
    simp only [jaccard]
    rw [if_pos]
    rcases h with h | h <;> simp [List.isEmpty_iff, h]

/-- C8 amended witness at a concrete pair. -/
theorem claim_C8_witness :
    jaccard ("hola que tal".data) ("hola que tal".data) = 1 :=
  (claim_C8 ("hola que tal".data) ("hola que".data)).2.2.1 (by decide)

/-- C9: when a direct title mention holds by substring containment of the
normalized title, it keeps holding for every superstring of the query. -/
theorem claim_C9 (q t u v : Str) (h1 : isDirectTitleMention q t = true)
    (h2 : normalize t <:+: normalize q) :
    isDirectTitleMention (u ++ q ++ v) t = true := by
  obtain ⟨hqne, htne⟩ := mention_nonempty h1
  have hbig : normalize t <:+: normalize (u ++ q ++ v) := h2.trans (normalize_within u q v)
  have hbigne : (normalize (u ++ q ++ v)).isEmpty = false := by
    cases hbe : (normalize (u ++ q ++ v)).isEmpty with
    | false => rfl
    | true =>
      exfalso
      rw [List.isEmpty_iff] at hbe
      rw [hbe] at hbig
      have hnil : normalize t = [] := List.sublist_nil.mp hbig.sublist
      rw [hnil] at htne
      simp at htne
  simp only [isDirectTitleMention, hbigne, htne, Bool.or_self, Bool.false_eq_true,
    if_false, decide_eq_true hbig, if_true]

/-- Lowercasing twice equals lowercasing once. -/
theorem lowerStr_idem (s : Str) : lowerStr (lowerStr s) = lowerStr s := by
  unfold lowerStr
  rw [List.map_map]
  exact List.map_congr_left (fun a _ => jsLower_idem a)

/-- C4 as stated is false: an unrecognized raw state survives ingestion
(lowercased) instead of defaulting to `proximo`, so the stored lifecycle
state is not one of the four known values. -/
theorem claim_C4_cex :
    (pickCourse (mkRaw ("CANCELADO".data))).estado = "cancelado".data ∧
      (pickCourse (mkRaw ("CANCELADO".data))).estado ∉
        [("inscripcion_abierta".data : Str), "proximo".data, "en_curso".data,
          "finalizado".data] := by
  decide

/-- C4 amended: ingestion lowercases the state and defaults it to `proximo`
only when absent; unrecognized values are kept verbatim (lowercased), and it
is the human-readable label, not the stored state, that always resolves to
one of the four known labels, falling back to the upcoming label. -/
theorem claim_C4 (raw : RawCourse) :
    (raw.estado = [] → (pickCourse raw).estado = "proximo".data) ∧
      lowerStr (pickCourse raw).estado = (pickCourse raw).estado ∧
      estadoLegible (pickCourse raw) ∈ ESTADO_LABEL.map (fun p => p.2) ∧
      ((pickCourse raw).estado ∉ ESTADO_LABEL.map (fun p => p.1) →
        estadoLegible (pickCourse raw) =
          "Próximo (inscripción aún no habilitada)".data) := by
  refine ⟨?_, ?_, estadoLegible_mem_labels _, ?_⟩
  · intro h
    simp only [pickCourse]
    rw [h]
    decide
  · simp only [pickCourse]
    exact lowerStr_idem _
  · intro h
    unfold estadoLegible
    by_cases he : (pickCourse raw).estado.isEmpty = true
    · rw [if_pos he]
      decide
    · rw [if_neg he, lookup_none h]
      rfl

/-- C4 amended witness: absent state defaults, unrecognized state falls back
at the label level. -/
theorem claim_C4_witness :
    (pickCourse (mkRaw [])).estado = "proximo".data ∧
      estadoLegible (pickCourse (mkRaw ("CANCELADO".data))) =
        "Próximo (inscripción aún no habilitada)".data :=
  ⟨(claim_C4 (mkRaw [])).1 rfl,
   (claim_C4 (mkRaw ("CANCELADO".data))).2.2.2 (by decide)⟩

/-- C3: deterministic listings only draw from the eligible courses, so no
entry is `en_curso`/`finalizado`; entries of the general-enrollment listing
are all `inscripcion_abierta`; and a non-open entry renders no enrollment
call-to-action (no anchor at all in its line). -/
theorem claim_C3 (cursos : List Course) (loc : Str) (c : Course) :
    ((c ∈ (cursosElegibles cursos).take 10 ∨
        c ∈ (cursosPorLocalidadElegibles cursos loc).take 7) →
      c.estado ≠ "en_curso".data ∧ c.estado ≠ "finalizado".data) ∧
      (c ∈ (cursosElegibles cursos).filter
          (fun k => k.estado == "inscripcion_abierta".data) →
        c.estado = "inscripcion_abierta".data) ∧
      (c.estado ≠ "inscripcion_abierta".data → ('<' : Char) ∉ c.titulo →
        linkFrag c = [] ∧ ¬ (("<a".data : Str) <:+: itemListado c)) := by
  refine ⟨?_, ?_, ?_⟩
  · intro h
    rcases h with h | h
    · exact eligible_not_blocked (mem_elegibles_eligible (List.mem_of_mem_take h))
    · have h2 := List.mem_of_mem_take h
      unfold cursosPorLocalidadElegibles at h2
      exact eligible_not_blocked
        (mem_elegibles_eligible (List.mem_of_mem_filter h2))
  · intro h
    have h2 := (List.mem_filter.mp h).2
    simpa using h2
  · intro h1 h2
    exact ⟨linkFrag_empty h1, anchor_free_itemListado h1 h2⟩

/-- C3 witness at a concrete upcoming course. -/
theorem claim_C3_witness :
    (demoProximo.estado ≠ "en_curso".data ∧ demoProximo.estado ≠ "finalizado".data) ∧
      linkFrag demoProximo = [] ∧
      ¬ (("<a".data : Str) <:+: itemListado demoProximo) :=
  ⟨(claim_C3 [demoProximo] [] demoProximo).1 (Or.inl (by decide)),
   (claim_C3 [demoProximo] [] demoProximo).2.2 (by decide) (by decide)⟩

/-- C1 as stated is false: the post-hoc filter leaves this LLM-style line
unchanged although it carries an `Inscribirte` forms anchor whose
`navigateToCourse` id belongs to a course that is not `inscripcion_abierta` —
the phrasing matches neither removal pattern. -/
theorem claim_C1_cex :
    testMatch abreLinkAt badLine = true ∧
      demoProximo.estado ≠ "inscripcion_abierta".data ∧
      sanitizeEnrollmentLinksByLine [demoProximo] badLine = badLine ∧
      (("forms.gle".data : Str) <:+: sanitizeEnrollmentLinksByLine [demoProximo] badLine) := by
  decide

/-- C1 amended: the deterministic renderer never attaches any anchor to a
course that is not `inscripcion_abierta` — its listing item, its actions
line and its enrollment answer are anchor-free, the latter using the
"not yet open" phrasing; only the external-fallback path relies on the
pattern-limited post filter (see the counterexample). -/
theorem claim_C1 (c : Course) (h1 : c.estado ≠ "inscripcion_abierta".data)
    (ht : ('<' : Char) ∉ c.titulo) :
    ¬ (("<a".data : Str) <:+: itemListado c) ∧
      ¬ (("<a".data : Str) <:+: accionesHTML c) ∧
      (c.estado ≠ "en_curso".data → c.estado ≠ "finalizado".data →
        ¬ (("<a".data : Str) <:+: renderCourseIntent (IntentR.formulario c) c) ∧
          (("la inscripción aún no está habilitada".data : Str) <:+:
            renderCourseIntent (IntentR.formulario c) c)) := by
  refine ⟨anchor_free_itemListado h1 ht, anchor_free_acciones h1, ?_⟩
  intro h2 h3
  refine ⟨anchor_free_formulario_closed h2 h3 h1 ht, ?_⟩
  rw [renderCourse_formulario_closed h2 h3 h1]
  have hmid : (("la inscripción aún no está habilitada".data : Str) <:+:
      "</strong>, la inscripción aún no está habilitada.<br>".data) := by decide
  refine hmid.trans ?_
  refine ⟨"En el curso <strong>".data ++ c.titulo, accionesHTML c, ?_⟩
  simp [List.append_assoc]

/-- C1 amended witness at a concrete upcoming course. -/
theorem claim_C1_witness :
    ¬ (("<a".data : Str) <:+: itemListado demoProximo) ∧
      ¬ (("<a".data : Str) <:+:
        renderCourseIntent (IntentR.formulario demoProximo) demoProximo) :=
  ⟨(claim_C1 demoProximo (by decide) (by decide)).1,
   ((claim_C1 demoProximo (by decide) (by decide)).2.2 (by decide) (by decide)).1⟩

/-- C6 as stated is false: the availability listing renders up to ten
entries — with six eligible courses the response carries six bullets. -/
theorem claim_C6_cex :
    ((cursosElegibles demo6).take 10).length = 6 ∧
      ((renderByIntent demo6 IntentR.listadoDisponibles).getD []).count '•' = 6 ∧
      ¬ ((renderByIntent demo6 IntentR.listadoDisponibles).getD []).count '•' ≤ 5 := by
  decide

/-- C6 amended: the caps are 10 for the availability listing, 7 for the
locality listing and 5 for the general-enrollment listing; every entry
template shows the course title, its human lifecycle label and the
`navigateToCourse` reference action. -/
theorem claim_C6 (cursos : List Course) (loc : Str) (c : Course) :
    ((cursosElegibles cursos).take 10).length ≤ 10 ∧
      ((cursosPorLocalidadElegibles cursos loc).take 7).length ≤ 7 ∧
      (((cursosElegibles cursos).filter
          (fun k => k.estado == "inscripcion_abierta".data)).take 5).length ≤ 5 ∧
      (c.titulo <:+: itemListado c) ∧ (estadoLegible c <:+: itemListado c) ∧
      (("navigateToCourse:".data : Str) <:+: itemListado c) ∧
      (c.titulo <:+: itemAbierta c) ∧ (estadoLegible c <:+: itemAbierta c) ∧
      (("navigateToCourse:".data : Str) <:+: itemAbierta c) := by
  refine ⟨List.length_take_le _ _, List.length_take_le _ _, List.length_take_le _ _,
    ?_, ?_, ?_, ?_, ?_, ?_⟩
  · exact ⟨"• <strong>".data,
      "</strong> — ".data ++ estadoLegible c ++ linkFrag c ++
        " — (navigateToCourse:".data ++ natDigits c.id ++ ")".data,
      by simp [itemListado, List.append_assoc]⟩
  · exact ⟨"• <strong>".data ++ c.titulo ++ "</strong> — ".data,
      linkFrag c ++ " — (navigateToCourse:".data ++ natDigits c.id ++ ")".data,
      by simp [itemListado, List.append_assoc]⟩
  · refine (by decide :
      ("navigateToCourse:".data : Str) <:+: " — (navigateToCourse:".data).trans ?_
    exact ⟨"• <strong>".data ++ c.titulo ++ "</strong> — ".data ++ estadoLegible c ++
        linkFrag c,
      natDigits c.id ++ ")".data,
      by simp [itemListado, List.append_assoc]⟩
  · exact ⟨"• <strong>".data,
      "</strong> — ".data ++ estadoLegible c ++ " — <a href=\"".data ++ c.formulario ++
        "\" target=\"_blank\" rel=\"noopener\">Inscribirte</a> — (navigateToCourse:".data ++
        natDigits c.id ++ ")".data,
      by simp [itemAbierta, List.append_assoc]⟩
  · exact ⟨"• <strong>".data ++ c.titulo ++ "</strong> — ".data,
      " — <a href=\"".data ++ c.formulario ++
        "\" target=\"_blank\" rel=\"noopener\">Inscribirte</a> — (navigateToCourse:".data ++
        natDigits c.id ++ ")".data,
      by simp [itemAbierta, List.append_assoc]⟩
  · refine (by decide :
      ("navigateToCourse:".data : Str) <:+:
        "\" target=\"_blank\" rel=\"noopener\">Inscribirte</a> — (navigateToCourse:".data).trans
      ?_
    exact ⟨"• <strong>".data ++ c.titulo ++ "</strong> — ".data ++ estadoLegible c ++
        " — <a href=\"".data ++ c.formulario,
      natDigits c.id ++ ")".data,
      by simp [itemAbierta, List.append_assoc]⟩

/-- C2: a non-empty message that directly mentions some `en_curso` or
`finalizado` course short-circuits the endpoint: the response is exactly the
fixed refusal line for the first such course, and the turn is not delegated
to the text-generation service. -/
theorem claim_C2 (cursos : List Course) (sessions : Sessions) (sid msg : Str)
    (hne : (trimJS msg).isEmpty = false)
    (h : ∃ c ∈ cursos, (c.estado = "en_curso".data ∨ c.estado = "finalizado".data) ∧
      isDirectTitleMention (trimJS msg) c.titulo = true) :
    ∃ c ∈ cursos, (c.estado = "en_curso".data ∨ c.estado = "finalizado".data) ∧
      isDirectTitleMention (trimJS msg) c.titulo = true ∧
      (handleChat cursos sessions sid msg).1 =
        Response.ok (if c.estado == "finalizado".data then refusalFinalizado c
          else refusalEnCurso c) ∧
      (handleChat cursos sessions sid msg).1 ≠ Response.llmDelegate := by
  cases hf : cursos.find? (fun c =>
      (c.estado == "en_curso".data || c.estado == "finalizado".data) &&
      isDirectTitleMention (trimJS msg) c.titulo) with
  | none =>
    exfalso
    obtain ⟨c, hc, hst, hm⟩ := h
    refine List.find?_eq_none.mp hf c hc ?_
    simp only [Bool.and_eq_true, Bool.or_eq_true, beq_iff_eq]
    exact ⟨hst, hm⟩
  | some c =>
    have hp := List.find?_some hf
    have hcmem := List.mem_of_find?_eq_some hf
    simp only [Bool.and_eq_true, Bool.or_eq_true, beq_iff_eq] at hp
    have heq : (handleChat cursos sessions sid msg).1 =
        Response.ok (if c.estado == "finalizado".data then refusalFinalizado c
          else refusalEnCurso c) := by
      simp only [handleChat, hne, Bool.false_eq_true, if_false, hf]
    refine ⟨c, hcmem, hp.1, hp.2, heq, ?_⟩
    rw [heq]
    simp

/-- C2 witness: the finished-course scenario of the spec. -/
theorem claim_C2_witness :
    (handleChat [demoGastro] [] [] ("quiero info del curso de gastronomia".data)).1 =
      Response.ok (refusalFinalizado demoGastro) := by
  obtain ⟨c, hc, _, _, heq, _⟩ := claim_C2 [demoGastro] [] []
    ("quiero info del curso de gastronomia".data) (by decide)
    ⟨demoGastro, by decide, Or.inr (by decide), by decide⟩
  have hcd : c = demoGastro := by simpa using hc
  subst hcd
  rw [heq]
  decide

/-- C10: an empty or whitespace-only message returns the 400-style
`Mensaje vacío` error, leaves the session store untouched and never reaches
the text-generation delegation. -/
theorem claim_C10 (cursos : List Course) (sessions : Sessions) (sid msg : Str)
    (h : trimJS msg = []) :
    handleChat cursos sessions sid msg =
        (Response.badRequest ("Mensaje vacío".data), sessions) ∧
      (handleChat cursos sessions sid msg).1 ≠ Response.llmDelegate := by
  have heq : handleChat cursos sessions sid msg =
      (Response.badRequest ("Mensaje vacío".data), sessions) := by
    simp only [handleChat, h, List.isEmpty_nil, if_true]
  exact ⟨heq, by rw [heq]; simp⟩

/-- C10 witness on a whitespace-only message. -/
theorem claim_C10_witness :
    handleChat [] [] [] ("   ".data) =
      (Response.badRequest ("Mensaje vacío".data), []) :=
  (claim_C10 [] [] [] ("   ".data) (by decide)).1

/-- C9 witness on a concrete superstring. -/
theorem claim_C9_witness :
    isDirectTitleMention (("hola ".data : Str) ++ "curso de flores".data ++ " gracias".data)
      ("curso de flores".data) = true :=
  claim_C9 ("curso de flores".data) ("curso de flores".data) ("hola ".data)
    (" gracias".data) (by decide) (by decide)

end MVP
